import Mathlib

/-!
Verification of the ytm-dumper core against its specification.

The definitions below are a shallow embedding of the Python source files
`exo_decrypt.py`, `cache_parser.py` and `database_parser.py`.  Machine
integers are modelled as `Nat`/`Int` with explicit wrapping, byte strings
as `List Nat`, and Python exceptions as an explicit `Except` error monad.
External libraries (AES from `cryptography`, `blackboxprotobuf`, `base64`)
are modelled as abstract function parameters, since their code is not part
of this repository.
-/

namespace YtmDumper

/-! ### exo_decrypt.py -/

/-- The shift/add update of `fnv1a` (exo_decrypt.py line 9):
`(res + (res<<1) + (res<<4) + (res<<5) + (res<<7) + (res<<8) + (res<<40)) & 0xffffffffffffffff`. -/
def fnv1a_mix (r : Nat) : Nat :=
  (r + (r <<< 1) + (r <<< 4) + (r <<< 5) + (r <<< 7) + (r <<< 8) + (r <<< 40)) &&&
    0xffffffffffffffff

/-- One step of the hash loop in `fnv1a` (exo_decrypt.py lines 7-9):
`res ^= i` followed by the shift/add update masked to 64 bits. -/
def fnv1a_step (res i : Nat) : Nat := fnv1a_mix (res ^^^ i)

/-- The hash function `fnv1a` of exo_decrypt.py: the accumulator starts at 0
and is updated once per input byte by `fnv1a_step`. -/
def fnv1a (data : List Nat) : Nat := data.foldl fnv1a_step 0

/-- Big-endian byte list (width `w`) of a natural number, as produced by
`struct.pack` with a big-endian format. -/
def toBEBytes (w n : Nat) : List Nat :=
  (List.range w).map (fun i => n / 256 ^ (w - 1 - i) % 256)

/-- Big-endian value of a byte list, used to read back multi-byte integers. -/
def beNat (bs : List Nat) : Nat := bs.foldl (fun a b => a * 256 + b) 0

/-- The 16-byte IV built by `decrypt_media`:
`struct.pack('>QQ', fnv1a(cache_key), 0)`. -/
def fnv1a_iv (cache_key : List Nat) : List Nat :=
  toBEBytes 8 (fnv1a cache_key) ++ toBEBytes 8 0

/-- The `i`-th counter block of AES-CTR with a full 16-byte initial value:
the IV interpreted as a 128-bit big-endian counter, incremented per block
modulo 2^128.  This is the counter sequence of the `cryptography` library's
`modes.CTR`. -/
def counterBlock (iv : List Nat) (i : Nat) : List Nat :=
  toBEBytes 16 ((beNat iv + i) % 2 ^ 128)

/-- The first `n` keystream bytes of the counter mode, for an abstract block
cipher `aes : key -> block -> block` (the AES permutation itself lives in the
external `cryptography` library).  Byte `j` is byte `j % 16` of the encrypted
counter block `j / 16`. -/
def keystream (aes : List Nat → List Nat → List Nat) (key iv : List Nat) (n : Nat) :
    List Nat :=
  (List.range n).map (fun j => (aes key (counterBlock iv (j / 16))).getD (j % 16) 0)

/-- Counter-mode processing: XOR the data with the keystream.  In CTR mode
encryption and decryption are this same operation. -/
def ctrProcess (aes : List Nat → List Nat → List Nat) (key iv data : List Nat) :
    List Nat :=
  List.zipWith (fun a b => a ^^^ b) data (keystream aes key iv data.length)

/-- The function `decrypt_media` of exo_decrypt.py, with the AES block
permutation abstracted: CTR decryption under the IV derived from
`fnv1a cache_key`. -/
def decrypt_media (aes : List Nat → List Nat → List Nat)
    (exo_file key cache_key : List Nat) : List Nat :=
  ctrProcess aes key (fnv1a_iv cache_key) exo_file

/-- The matching counter-mode encrypt operation for `decrypt_media` (not in
the source; in CTR mode the encryptor performs the identical XOR with the
identical keystream). -/
def encrypt_media (aes : List Nat → List Nat → List Nat)
    (plain key cache_key : List Nat) : List Nat :=
  ctrProcess aes key (fnv1a_iv cache_key) plain

/-! ### cache_parser.py — CacheIdxParser

The parser state of `CacheIdxParser` is the decrypted plaintext together with
a byte offset.  `unpack` delegates to `struct.unpack_from`, which raises a
`struct.error` when fewer bytes than the format needs remain; `unpack_bytes`
slices the plaintext, and a Python slice `contents[offset:offset+n]` silently
returns fewer than `n` bytes when the buffer is short. -/

/-- Errors of the embedded Python code, named after the exception classes the
corresponding Python operations raise. -/
inductive Err where
  | structError : Err
  | keyError : String → Err
  | typeError : Err
  | valueError : Err
  | indexError : Err
  | attributeError : Err
  | unicodeError : Err
  | runtimeError : Err
  deriving DecidableEq, Repr

/-- The `unpack` method for a `w`-byte big-endian unsigned format:
`struct.unpack_from` reads `w` bytes at the current offset and raises
`struct.error` when the buffer is too short; the offset advances by `w`. -/
def unpackBE (w : Nat) (contents : List Nat) (off : Nat) : Except Err (Nat × Nat) :=
  if off + w ≤ contents.length then
    .ok (beNat ((contents.drop off).take w), off + w)
  else
    .error .structError

/-- The slicing part of `unpack_bytes` (cache_parser.py lines 63-66):
`contents[offset:offset+strlen]`, with the offset advanced by `strlen`
unconditionally.  A Python slice never fails; it silently returns fewer
bytes when the buffer is short. -/
def sliceBytes (strlen : Nat) (contents : List Nat) (off : Nat) : List Nat × Nat :=
  ((contents.drop off).take strlen, off + strlen)

/-- Replace the value at a key in an association list, keeping the first
occurrence's position, or append at the end — Python `dict` assignment. -/
def updAssoc {α β : Type} [DecidableEq α] (l : List (α × β)) (k : α) (v : β) :
    List (α × β) :=
  match l with
  | [] => [(k, v)]
  | (a, b) :: t => if a = k then (a, v) :: t else (a, b) :: updAssoc t k v

/-- The inner loop of `CacheIdxParser.__init__` (lines 45-49): read `n` pairs
of a length-prefixed subkey and a `u32`-length-prefixed value into `items`. -/
def parseItems (contents : List Nat) :
    Nat → List (List Nat × List Nat) → Nat → Except Err (List (List Nat × List Nat) × Nat)
  | 0, acc, off => .ok (acc, off)
  | n + 1, acc, off =>
    match unpackBE 2 contents off with
    | .error e => .error e
    | .ok (klen, off1) =>
      let s1 := sliceBytes klen contents off1
      match unpackBE 4 contents s1.2 with
      | .error e => .error e
      | .ok (count3, off3) =>
        let s2 := sliceBytes count3 contents off3
        parseItems contents n (updAssoc acc s1.1 s2.1) s2.2

/-- One entry of the parsed cache index: `dict(id=id, items=items)`. -/
structure CacheEntry where
  id : Nat
  items : List (List Nat × List Nat)
  deriving DecidableEq, Repr

/-- The outer loop of `CacheIdxParser.__init__` (lines 39-49): read `n`
entries, each a `u32` id, a length-prefixed key, a `u32` item count and that
many items. -/
def parseEntries (contents : List Nat) :
    Nat → List (List Nat × CacheEntry) → Nat →
      Except Err (List (List Nat × CacheEntry) × Nat)
  | 0, acc, off => .ok (acc, off)
  | n + 1, acc, off =>
    match unpackBE 4 contents off with
    | .error e => .error e
    | .ok (id, off1) =>
      match unpackBE 2 contents off1 with
      | .error e => .error e
      | .ok (klen, off2) =>
        let s1 := sliceBytes klen contents off2
        match unpackBE 4 contents s1.2 with
        | .error e => .error e
        | .ok (count2, off4) =>
          match parseItems contents count2 [] off4 with
          | .error e => .error e
          | .ok (items, off5) =>
            parseEntries contents n (updAssoc acc s1.1 ⟨id, items⟩) off5

/-- The body of `CacheIdxParser.__init__` run on the decrypted plaintext
(`self.contents`): read the `u32` entry count and then that many entries.
Returns the entries mapping and the final offset; there is no check that the
final offset equals the plaintext length. -/
def cacheIdxParse (plaintext : List Nat) :
    Except Err (List (List Nat × CacheEntry) × Nat) :=
  match unpackBE 4 plaintext 0 with
  | .error e => .error e
  | .ok (count, off) => parseEntries plaintext count [] off

/-! ### database_parser.py — value model

`blackboxprotobuf.decode_message` returns plain Python values: ints, strings,
dicts keyed by field-number strings or hint names, and lists for repeated
fields.  `PVal` models those values; `Err` (above) models the exceptions the
extraction code can raise. -/

inductive PVal where
  | vint : Int → PVal
  | vstr : String → PVal
  | vmsg : List (String × PVal) → PVal
  | vlist : List PVal → PVal

/-- Association-list lookup with decidable key equality (Python `dict`
lookup; Python dicts preserve insertion order and keys are unique). -/
def lookupA {α β : Type} [DecidableEq α] : List (α × β) → α → Option β
  | [], _ => none
  | (a, b) :: t, k => if a = k then some b else lookupA t k

/-- Python subscription `x[key]` with a string key: a dict lookup that raises
`KeyError` when the key is absent, and `TypeError` when `x` is not a dict
(string indices must be integers; list indices must be integers; ints are not
subscriptable). -/
def pyGet (x : PVal) (key : String) : Except Err PVal :=
  match x with
  | .vmsg m =>
    match lookupA m key with
    | some v => .ok v
    | none => .error (.keyError key)
  | _ => .error .typeError

/-- Python `x.get(key)` returning `None` when absent: only dicts have `.get`;
on any other value it raises `AttributeError`. -/
def pyDictGet (x : PVal) (key : String) : Except Err (Option PVal) :=
  match x with
  | .vmsg m => .ok (lookupA m key)
  | _ => .error .attributeError

/-- Python comparison `a > b` as used by `max`'s key comparison: defined for
two ints and for two strings (lexicographic); any other combination raises
`TypeError`. -/
def gtP : PVal → PVal → Except Err Bool
  | .vint a, .vint b => .ok (decide (b < a))
  | .vstr a, .vstr b => .ok (decide (b < a))
  | _, _ => .error .typeError

/-- The scanning loop of Python `max(l, key=f)`: evaluate the key of each
remaining element once, in order, replacing the current best exactly when the
new key is strictly greater — so ties resolve to the first maximal element. -/
def pymaxGo (f : PVal → Except Err PVal) (cur curKey : PVal) :
    List PVal → Except Err PVal
  | [] => .ok cur
  | y :: ys =>
    match f y with
    | .error e => .error e
    | .ok ky =>
      match gtP ky curKey with
      | .error e => .error e
      | .ok b => if b then pymaxGo f y ky ys else pymaxGo f cur curKey ys

/-- Python `max(l, key=f)` on a list: the first element is the initial best
(its key evaluated first), then `pymaxGo` scans the rest.  An empty list
raises `ValueError`. -/
def pymaxBy (f : PVal → Except Err PVal) : List PVal → Except Err PVal
  | [] => .error .valueError
  | x :: xs =>
    match f x with
    | .error e => .error e
    | .ok k0 => pymaxGo f x k0 xs

/-- Python `max(v, key=lambda x: x["2"])` where `v` is whatever
`details["25"]["1"]` decoded to (database_parser.py line 152).  When `v` is a
list the usual max-by-key runs.  When `v` is a single dict (a single cover
candidate), iterating the dict yields its string keys and the key lambda
subscripts a string, raising `TypeError` (or `ValueError` for an empty dict).
Iterating a string likewise hands single-character strings to the lambda
(`TypeError`); an int is not iterable (`TypeError`). -/
def pymaxCoversA (v : PVal) : Except Err PVal :=
  match v with
  | .vlist l => pymaxBy (fun x => pyGet x "2") l
  | .vmsg [] => .error .valueError
  | .vmsg (_ :: _) => .error .typeError
  | .vstr s => if s.isEmpty then .error .valueError else .error .typeError
  | .vint _ => .error .typeError

/-- Cover-url selection of Source A (line 152):
`max(details["25"]["1"], key=lambda x: x["2"])["1"]`. -/
def coverUrlA (coversVal : PVal) : Except Err PVal :=
  match pymaxCoversA coversVal with
  | .error e => .error e
  | .ok m => pyGet m "1"

/-- Source B normalization (line 223):
`if not isinstance(covers, list): covers = [covers]`. -/
def normCovers (covers : PVal) : List PVal :=
  match covers with
  | .vlist l => l
  | c => [c]

/-- Cover-url selection of Source B (lines 223-225): normalize to a list,
then `max(covers, key=lambda x: x["height"])["url"]`. -/
def coverUrlB (coversVal : PVal) : Except Err PVal :=
  match pymaxBy (fun x => pyGet x "height") (normCovers coversVal) with
  | .error e => .error e
  | .ok m => pyGet m "url"

/-- Python `b'%d' % x` formatting: requires an int, otherwise `TypeError`. -/
def pyAsInt (x : PVal) : Except Err Int :=
  match x with
  | .vint n => .ok n
  | _ => .error .typeError

/-- Python `k.encode('ascii')`: only strings have `.encode`
(`AttributeError` otherwise), and a non-ASCII character raises
`UnicodeEncodeError`. -/
def pyAsciiStr (x : PVal) : Except Err String :=
  match x with
  | .vstr s =>
    if s.data.all (fun ch => ch.toNat < 128) then .ok s else .error .unicodeError
  | _ => .error .attributeError

/-- Python truthiness of a decoded value (`if message:`): `0`, the empty
string, the empty dict and the empty list are falsy. -/
def pyTruthy (x : PVal) : Bool :=
  match x with
  | .vint n => decide (n ≠ 0)
  | .vstr s => !s.isEmpty
  | .vmsg m => !m.isEmpty
  | .vlist l => !l.isEmpty

/-! ### database_parser.py — EntityStore and OfflineVideoDb -/

/-- Except/try-propagation: run `x`; a raised exception propagates, a value
is consumed by the continuation.  This is Python's ordinary evaluation of a
sequence of possibly-raising expressions. -/
def bindE {α β : Type} (x : Except Err α) (f : α → Except Err β) : Except Err β :=
  match x with
  | .error e => .error e
  | .ok a => f a

mutual

/-- Structural equality on decoded Python values (`==`). -/
def PVal.beq : PVal → PVal → Bool
  | .vint a, .vint b => a == b
  | .vstr a, .vstr b => a == b
  | .vmsg a, .vmsg b => beqPairs a b
  | .vlist a, .vlist b => beqVals a b
  | _, _ => false

/-- Structural equality on dict entry lists. -/
def beqPairs : List (String × PVal) → List (String × PVal) → Bool
  | [], [] => true
  | (k1, v1) :: t1, (k2, v2) :: t2 => k1 == k2 && PVal.beq v1 v2 && beqPairs t1 t2
  | _, _ => false

/-- Structural equality on value lists. -/
def beqVals : List PVal → List PVal → Bool
  | [], [] => true
  | v1 :: t1, v2 :: t2 => PVal.beq v1 v2 && beqVals t1 t2
  | _, _ => false

end

/-- Keys of the per-identifier dict in `EntityStore.data`: the integer
discriminator codes 119/198 and the string key `"timestamp"` share one dict. -/
inductive EKey where
  | ik : Int → EKey
  | sk : String → EKey
  deriving DecidableEq

/-- One per-identifier accumulation dict of `EntityStore.data`. -/
abbrev Entry := List (EKey × PVal)

/-- The canonical output record, the `Video` namedtuple of database_parser.py
line 14.  Python `None` is modelled as `none`. -/
structure Video where
  id : PVal
  cache_key : String
  title : PVal
  artist : Option PVal
  cover_url : PVal
  mime : PVal
  album : Option PVal
  timestamp : Option PVal

/-- Stream-info extraction of `EntityStore.__iter__` (lines 146-150):
`stream = cache["2"]; if type(stream) == list: stream = stream[0];
stream = stream["format_stream"]`.  Indexing `[0]` on an empty list raises
`IndexError`. -/
def streamOfCache (cache : PVal) : Except Err PVal :=
  bindE (pyGet cache "2") fun s =>
  match s with
  | .vlist [] => .error .indexError
  | .vlist (x :: _) => pyGet x "format_stream"
  | other => pyGet other "format_stream"

/-- The body of `EntityStore.__iter__` for one `(k, v)` pair of `self.data`
(lines 135-162, with `DEBUG` false): skip unless both discriminator codes are
present, extract the fields, and build the `Video`.  Expressions are
sequenced exactly as the source evaluates them. -/
def entityIterStep (k : PVal) (v : Entry) : Except Err (Option Video) :=
  match lookupA v (.ik 119) with
  | none => .ok none
  | some vd =>
    bindE (pyGet vd "2") fun d2 =>
    bindE (pyGet d2 "11") fun details =>
    match lookupA v (.ik 198) with
    | none => .ok none
    | some cache =>
      bindE (streamOfCache cache) fun stream =>
      bindE (bindE (pyGet details "25") fun d25 => pyGet d25 "1") fun coversVal =>
      bindE (coverUrlA coversVal) fun cover_url =>
      bindE (pyAsciiStr k) fun ks =>
      bindE (pyGet stream "itag") fun itagRaw =>
      bindE (pyGet stream "timestamp") fun tsRaw =>
      bindE (pyAsInt itagRaw) fun itag =>
      bindE (pyAsInt tsRaw) fun ts =>
      bindE (pyGet details "title") fun title =>
      bindE (pyGet details "artist") fun artist =>
      bindE (pyGet stream "mime_type") fun mime =>
      .ok (some { id := k,
                  cache_key := ks ++ "." ++ toString itag ++ "." ++ toString ts,
                  title := title, artist := some artist, cover_url := cover_url,
                  mime := mime,
                  album := some ((lookupA v (.sk "56")).getD (.vstr "")),
                  timestamp := lookupA v (.sk "timestamp") })

/-- Driving the `EntityStore.__iter__` generator to completion: the videos
yielded before any uncaught exception, together with that exception when one
is raised. -/
def entityIter : List (PVal × Entry) → List Video × Option Err
  | [] => ([], none)
  | (k, v) :: rest =>
    match entityIterStep k v with
    | .error e => ([], some e)
    | .ok none => entityIter rest
    | .ok (some vid) =>
      let r := entityIter rest
      (vid :: r.1, r.2)

/-- Python subscription on a value that may be `None`
(`decode_protobuf_message` returns `None` on a doubly-failed decode):
subscripting `None` raises `TypeError`. -/
def pyGetOpt (x : Option PVal) (key : String) : Except Err PVal :=
  match x with
  | none => .error .typeError
  | some v => pyGet v key

/-- One stored row of `OfflineVideoDb.data`:
`(video, stream, timestamp) = (row[1] decoded, row[2] decoded, row[3])`,
where either decode may have returned `None`. -/
abbrev ORowVal := Option PVal × Option PVal × Int

/-- The body of `OfflineVideoDb.__iter__` for one `(k, v)` pair (lines
218-236), sequenced exactly as the source evaluates it. -/
def offlineIterStep (k : String) (v : ORowVal) : Except Err Video :=
  bindE (pyGetOpt v.1 "14") fun d14 =>
  bindE (pyGet d14 "metadata") fun details =>
  bindE (pyGetOpt v.1 "2") fun d2 =>
  bindE (pyGet d2 "covers") fun coversVal =>
  bindE (coverUrlB coversVal) fun cover_url =>
  bindE (pyAsciiStr (.vstr k)) fun ks =>
  bindE (pyGetOpt v.2.1 "itag") fun itagRaw =>
  bindE (pyGetOpt v.2.1 "timestamp") fun tsRaw =>
  bindE (pyAsInt itagRaw) fun itag =>
  bindE (pyAsInt tsRaw) fun ts =>
  bindE (pyGet details "title") fun title =>
  bindE (pyDictGet details "artist") fun artist =>
  bindE (pyGetOpt v.2.1 "mime_type") fun mime =>
  .ok { id := .vstr k,
        cache_key := ks ++ "." ++ toString itag ++ "." ++ toString ts,
        title := title, artist := artist, cover_url := cover_url, mime := mime,
        album := none, timestamp := some (.vint v.2.2) }

/-- Driving the `OfflineVideoDb.__iter__` generator to completion. -/
def offlineIter : List (String × ORowVal) → List Video × Option Err
  | [] => ([], none)
  | (k, v) :: rest =>
    match offlineIterStep k v with
    | .error e => ([], some e)
    | .ok vid =>
      let r := offlineIter rest
      (vid :: r.1, r.2)

/-! ### The decode layer (lines 60-73) and the two `__init__` loops

`blackboxprotobuf.decode_message` and `base64.b64decode`/`urllib.unquote`
are external library code; they are abstracted as an oracle: `hinted h raw`
is the result of `decode_message(raw, hint)` for the hint named `h` (`none`
when it raises), `raw` the result of hint-less `decode_message(raw)`, and
`b64u` the composition `b64decode(unquote(key))`. -/

structure BBP where
  hinted : String → List Nat → Option PVal
  raw : List Nat → Option PVal
  b64u : String → Except Err (List Nat)

/-- The three possible outcomes of `decode_protobuf_message`. -/
inductive DecodeOutcome where
  | ok : PVal → DecodeOutcome
  | retNone : DecodeOutcome
  | raised : DecodeOutcome

/-- The function `decode_protobuf_message` (lines 60-73): try the hinted
decode; on failure try the raw decode — if that also fails, print and return
`None`; if the raw decode succeeds, raise `RuntimeError` (the hint does not
match the message). -/
def decode_protobuf_message (bbp : BBP) (hintName : String) (rawMsg : List Nat) :
    DecodeOutcome :=
  match bbp.hinted hintName rawMsg with
  | some m => .ok m
  | none =>
    match bbp.raw rawMsg with
    | some _ => .raised
    | none => .retNone

/-- Association-list lookup with `PVal` keys (`EntityStore.data` is keyed by
the decoded identifier value). -/
def lookupB : List (PVal × Entry) → PVal → Option Entry
  | [], _ => none
  | (a, b) :: t, k => if PVal.beq a k then some b else lookupB t k

/-- Python dict assignment with `PVal` keys. -/
def updB (l : List (PVal × Entry)) (k : PVal) (v : Entry) : List (PVal × Entry) :=
  match l with
  | [] => [(k, v)]
  | (a, b) :: t => if PVal.beq a k then (a, v) :: t else (a, b) :: updB t k v

/-- One row of the `entity_table` query:
`(key, data_type, entity, last_modified_datetime)`. -/
structure ERow where
  key : String
  data_type : Int
  entity : List Nat
  ts : Int

/-- The hint passed to `decode_protobuf_message` per discriminator code
(`DATA_TYPES`, line 55): 119 is `VideoDetails`, 198 is `FormatStream`. -/
def hintNameOf (dt : Int) : String :=
  if dt = 119 then "VideoDetails" else "FormatStream"

/-- The body of the `EntityStore.__init__` row loop (lines 91-130, `DEBUG`
false) for one row: skip foreign discriminator codes; decode the quoted
base64 key with the `Key` hint and take its `"key"` field — any failure there
is re-raised (subscripting a `None` result raises `TypeError`); decode the
entity with the code's hint — a raised hint mismatch aborts, a `None` result
is skipped by `if message:` (as is any falsy message), and otherwise the
message is stored under the identifier, with the row timestamp stored for
code 119. -/
def entityInitStep (bbp : BBP) (data : List (PVal × Entry)) (row : ERow) :
    Except Err (List (PVal × Entry)) :=
  if row.data_type ≠ 119 ∧ row.data_type ≠ 198 then .ok data
  else
    bindE (bbp.b64u row.key) fun keyBytes =>
    match decode_protobuf_message bbp "Key" keyBytes with
    | .raised => .error .runtimeError
    | .retNone => .error .typeError
    | .ok keyMsg =>
      bindE (pyGet keyMsg "key") fun kv =>
      match decode_protobuf_message bbp (hintNameOf row.data_type) row.entity with
      | .raised => .error .runtimeError
      | .retNone => .ok data
      | .ok m =>
        if pyTruthy m then
          let entry := (lookupB data kv).getD []
          let entry1 := updAssoc entry (EKey.ik row.data_type) m
          let entry2 :=
            if row.data_type = 119 then updAssoc entry1 (EKey.sk "timestamp") (.vint row.ts)
            else entry1
          .ok (updB data kv entry2)
        else .ok data

/-- The whole `EntityStore.__init__` row loop: fold the rows, propagating any
uncaught exception (which aborts the constructor). -/
def entityInit (bbp : BBP) : List ERow → List (PVal × Entry) →
    Except Err (List (PVal × Entry))
  | [], data => .ok data
  | row :: rest, data =>
    match entityInitStep bbp data row with
    | .error e => .error e
    | .ok data2 => entityInit bbp rest data2

/-- One row of the `videosV2, streams` join:
`(id, offline_video_data_proto, format_stream_proto, saved_timestamp)`. -/
structure BRow where
  id : String
  videoBytes : List Nat
  streamBytes : List Nat
  ts : Int

/-- Lift a decode outcome into the stored value: a raised hint mismatch
propagates as `RuntimeError`, a `None` is stored as `none` (the source does
not check it). -/
def outcomeToOpt : DecodeOutcome → Except Err (Option PVal)
  | .raised => .error .runtimeError
  | .retNone => .ok none
  | .ok m => .ok (some m)

/-- The body of the `OfflineVideoDb.__init__` row loop (lines 207-213) for
one row: decode both protobuf columns (a raised hint mismatch aborts the
constructor; a `None` result is stored as-is) and store the triple under the
row id. -/
def offlineInitStep (bbp : BBP) (data : List (String × ORowVal)) (row : BRow) :
    Except Err (List (String × ORowVal)) :=
  bindE (outcomeToOpt (decode_protobuf_message bbp "OfflineVideoData" row.videoBytes))
    fun vOpt =>
  bindE (outcomeToOpt (decode_protobuf_message bbp "FormatStream" row.streamBytes))
    fun sOpt =>
  .ok (updAssoc data row.id (vOpt, sOpt, row.ts))

/-- The whole `OfflineVideoDb.__init__` row loop. -/
def offlineInit (bbp : BBP) : List BRow → List (String × ORowVal) →
    Except Err (List (String × ORowVal))
  | [], data => .ok data
  | row :: rest, data =>
    match offlineInitStep bbp data row with
    | .error e => .error e
    | .ok data2 => offlineInit bbp rest data2

/-! ### Cover-candidate selection (claim C4) -/

/-- A Source A cover candidate as decoded without a hint: field `"1"` is the
URL, field `"2"` the size. -/
def coverA (p : String × Int) : PVal := .vmsg [("1", .vstr p.1), ("2", .vint p.2)]

/-- A Source B cover candidate as decoded with the hint: named `url` and
`height` fields. -/
def coverB (p : String × Int) : PVal :=
  .vmsg [("url", .vstr p.1), ("height", .vint p.2)]

/-- Specification-side fold mirroring Python `max` with a strict comparison:
starting from `b`, replace the best only on a strictly larger size — the
first maximal element wins ties. -/
def pickFirstMax (b : String × Int) : List (String × Int) → String × Int
  | [] => b
  | p :: ps => pickFirstMax (if b.2 < p.2 then p else b) ps

/-- The keys `EntityStore.__init__` can ever store in a per-identifier dict:
the two discriminator codes and the `"timestamp"` marker. -/
def EntryOK (v : Entry) : Prop :=
  ∀ p ∈ v, p.1 = EKey.ik 119 ∨ p.1 = EKey.ik 198 ∨ p.1 = EKey.sk "timestamp"

/-- Every per-identifier dict of an `EntityStore.data` mapping satisfies
`EntryOK`. -/
def DataOK (data : List (PVal × Entry)) : Prop := ∀ p ∈ data, EntryOK p.2

/-- A concrete stored Source B row used to witness C7: full details and
stream-info records. -/
def w7val : ORowVal :=
  (some (.vmsg [("14", .vmsg [("metadata",
      .vmsg [("title", .vstr "t"), ("artist", .vstr "ar")])]),
    ("2", .vmsg [("covers", .vmsg [("url", .vstr "u"), ("height", .vint 3)])])]),
   some (.vmsg [("itag", .vint 5), ("timestamp", .vint 6), ("mime_type", .vstr "m")]),
   7)

/-- The `Video` that `offlineIterStep "a" w7val` yields. -/
def w7vid : Video :=
  ⟨.vstr "a", "a.5.6", .vstr "t", some (.vstr "ar"), .vstr "u", .vstr "m", none,
   some (.vint 7)⟩

/-- A concrete stored Source B row used to witness C10. -/
def w10val : ORowVal :=
  (some (.vmsg [("14", .vmsg [("metadata", .vmsg [("title", .vstr "s")])]),
    ("2", .vmsg [("covers",
      .vlist [.vmsg [("url", .vstr "v"), ("height", .vint 9)]])])]),
   some (.vmsg [("itag", .vint 8), ("timestamp", .vint 9), ("mime_type", .vstr "n")]),
   11)

/-- The `Video` that `offlineIterStep "b" w10val` yields (`artist` is `None`
via `.get`). -/
def w10vid : Video :=
  ⟨.vstr "b", "b.8.9", .vstr "s", none, .vstr "v", .vstr "n", none, some (.vint 11)⟩

/-! ### Lemmas about the cache-index parser -/

theorem unpackBE_ok {w : Nat} {c : List Nat} {off v f : Nat}
    (h : unpackBE w c off = .ok (v, f)) :
    f = off + w ∧ off + w ≤ c.length := by
  unfold unpackBE at h
  split at h
  · next hc =>
    simp only [Except.ok.injEq, Prod.mk.injEq] at h
    exact ⟨h.2.symm, hc⟩
  · exact Except.noConfusion h

theorem take_drop_append {c : List Nat} (q : List Nat) {off w : Nat}
    (h : off + w ≤ c.length) :
    ((c ++ q).drop off).take w = (c.drop off).take w := by
  rw [List.drop_append_of_le_length (by omega)]
  rw [List.take_append_of_le_length]
  simp only [List.length_drop]
  omega

theorem unpackBE_append {w : Nat} {c : List Nat} (q : List Nat) {off v f : Nat}
    (h : unpackBE w c off = .ok (v, f)) :
    unpackBE w (c ++ q) off = .ok (v, f) := by
  obtain ⟨hf, hle⟩ := unpackBE_ok h
  unfold unpackBE at h ⊢
  rw [if_pos hle] at h
  rw [if_pos (by simp only [List.length_append]; omega)]
  rw [take_drop_append q hle]
  exact h

theorem parseItems_mono {c : List Nat} {n : Nat} :
    ∀ {acc off r f}, parseItems c n acc off = .ok (r, f) → off ≤ f := by
  induction n with
  | zero =>
    intro acc off r f h
    unfold parseItems at h
    simp only [Except.ok.injEq, Prod.mk.injEq] at h
    omega
  | succ m ih =>
    intro acc off r f h
    unfold parseItems at h
    split at h
    · exact Except.noConfusion h
    · rename_i klen off1 heq1
      simp only [sliceBytes] at h
      split at h
      · exact Except.noConfusion h
      · rename_i count3 off3 heq2
        have hm := ih h
        obtain ⟨h1a, _⟩ := unpackBE_ok heq1
        obtain ⟨h2a, _⟩ := unpackBE_ok heq2
        omega

theorem parseItems_append {c : List Nat} (q : List Nat) {n : Nat} :
    ∀ {acc off r f}, parseItems c n acc off = .ok (r, f) → f ≤ c.length →
      parseItems (c ++ q) n acc off = .ok (r, f) := by
  induction n with
  | zero =>
    intro acc off r f h _
    unfold parseItems at h ⊢
    exact h
  | succ m ih =>
    intro acc off r f h hf
    unfold parseItems at h
    split at h
    · exact Except.noConfusion h
    · rename_i klen off1 heq1
      simp only [sliceBytes] at h
      split at h
      · exact Except.noConfusion h
      · rename_i count3 off3 heq2
        have hm := parseItems_mono h
        obtain ⟨h1a, h1b⟩ := unpackBE_ok heq1
        obtain ⟨h2a, h2b⟩ := unpackBE_ok heq2
        have e1 := unpackBE_append q heq1
        have e2 := unpackBE_append q heq2
        simp only [parseItems, e1, sliceBytes, e2,
          take_drop_append q (show off1 + klen ≤ c.length by omega),
          take_drop_append q (show off3 + count3 ≤ c.length by omega)]
        exact ih h hf

theorem parseEntries_mono {c : List Nat} {n : Nat} :
    ∀ {acc off r f}, parseEntries c n acc off = .ok (r, f) → off ≤ f := by
  induction n with
  | zero =>
    intro acc off r f h
    unfold parseEntries at h
    simp only [Except.ok.injEq, Prod.mk.injEq] at h
    omega
  | succ m ih =>
    intro acc off r f h
    unfold parseEntries at h
    split at h
    · exact Except.noConfusion h
    · rename_i id off1 heq1
      split at h
      · exact Except.noConfusion h
      · rename_i klen off2 heq2
        simp only [sliceBytes] at h
        split at h
        · exact Except.noConfusion h
        · rename_i count2 off4 heq3
          split at h
          · exact Except.noConfusion h
          · rename_i items off5 heq4
            have hm := ih h
            have hm2 := parseItems_mono heq4
            obtain ⟨h1a, _⟩ := unpackBE_ok heq1
            obtain ⟨h2a, _⟩ := unpackBE_ok heq2
            obtain ⟨h3a, _⟩ := unpackBE_ok heq3
            omega

theorem parseEntries_append {c : List Nat} (q : List Nat) {n : Nat} :
    ∀ {acc off r f}, parseEntries c n acc off = .ok (r, f) → f ≤ c.length →
      parseEntries (c ++ q) n acc off = .ok (r, f) := by
  induction n with
  | zero =>
    intro acc off r f h _
    unfold parseEntries at h ⊢
    exact h
  | succ m ih =>
    intro acc off r f h hf
    unfold parseEntries at h
    split at h
    · exact Except.noConfusion h
    · rename_i id off1 heq1
      split at h
      · exact Except.noConfusion h
      · rename_i klen off2 heq2
        simp only [sliceBytes] at h
        split at h
        · exact Except.noConfusion h
        · rename_i count2 off4 heq3
          split at h
          · exact Except.noConfusion h
          · rename_i items off5 heq4
            have hm := parseEntries_mono h
            have hm2 := parseItems_mono heq4
            obtain ⟨h1a, h1b⟩ := unpackBE_ok heq1
            obtain ⟨h2a, h2b⟩ := unpackBE_ok heq2
            obtain ⟨h3a, h3b⟩ := unpackBE_ok heq3
            have e1 := unpackBE_append q heq1
            have e2 := unpackBE_append q heq2
            have e3 := unpackBE_append q heq3
            have e4 := parseItems_append q heq4 (by omega)
            simp only [parseEntries, e1, e2, sliceBytes, e3, e4,
              take_drop_append q (show off2 + klen ≤ c.length by omega)]
            exact ih h hf

/-- C2 counterexample: a decrypted plaintext declaring zero entries followed
by one leftover byte parses successfully to the empty mapping with final
offset 4, although one unconsumed byte remains (the buffer has length 5);
no error of any kind is raised. -/
theorem cacheIdxParse_leftover_cex :
    cacheIdxParse [0, 0, 0, 0, 7] = .ok ([], 4) := by
  rfl

/-- C2 (amended): parsing does not verify that the plaintext is consumed
exactly to its end.  Unconsumed bytes after the declared entries are silently
ignored: appending arbitrary extra bytes to a successfully parsed plaintext
yields the identical mapping and final offset.  (Only a fixed-width integer
read past the buffer end fails, with a `struct.error`; an out-of-range bytes
length yields a silent short read.) -/
theorem cacheIdxParse_ignores_leftover (p q : List Nat)
    (e : List (List Nat × CacheEntry)) (f : Nat)
    (h : cacheIdxParse p = .ok (e, f)) (hf : f ≤ p.length) :
    cacheIdxParse (p ++ q) = .ok (e, f) := by
  unfold cacheIdxParse at h
  split at h
  · exact Except.noConfusion h
  · rename_i count off heq
    have e1 := unpackBE_append q heq
    simp only [cacheIdxParse, e1]
    exact parseEntries_append q h hf

/-- C2 witness: appending a junk byte to the well-formed empty-index
plaintext is silently ignored. -/
theorem cacheIdxParse_ignores_leftover_witness :
    cacheIdxParse ([0, 0, 0, 0] ++ [9]) = .ok ([], 4) :=
  cacheIdxParse_ignores_leftover [0, 0, 0, 0] [9] [] 4 (by rfl) (by decide)

/-! ### Lemmas about the decode layer and the reconcilers -/

theorem bindE_ok {α β : Type} {x : Except Err α} {f : α → Except Err β} {b : β} :
    bindE x f = .ok b ↔ ∃ a, x = .ok a ∧ f a = .ok b := by
  cases x <;> simp [bindE]

/-- C3 counterexample: with an oracle under which the stream-info bytes `[9]`
fail the hinted decode but succeed the raw decode, a load containing one good
row followed by one bad row raises `RuntimeError` — the whole load aborts and
zero `VideoRecord`s are produced, for the good row too. -/
theorem offlineInit_raises_cex :
    offlineInit
      { hinted := fun _ r => if r = [9] then none else some (.vmsg [("x", .vint 1)]),
        raw := fun _ => some (.vmsg [("1", .vint 0)]),
        b64u := fun _ => .ok [] }
      [⟨"g", [1], [2], 5⟩, ⟨"b", [1], [9], 6⟩] [] = .error .runtimeError := by
  rfl

theorem offlineInitStep_raised {bbp : BBP} {data : List (String × ORowVal)} {row : BRow}
    (h : decode_protobuf_message bbp "OfflineVideoData" row.videoBytes = .raised ∨
      decode_protobuf_message bbp "FormatStream" row.streamBytes = .raised) :
    offlineInitStep bbp data row = .error .runtimeError := by
  unfold offlineInitStep
  rcases h with h | h
  · rw [h]; rfl
  · cases hv : decode_protobuf_message bbp "OfflineVideoData" row.videoBytes <;>
      rw [h] <;> rfl

theorem offlineInitStep_retNone {bbp : BBP} {data : List (String × ORowVal)}
    {row : BRow} {m : PVal}
    (hv : decode_protobuf_message bbp "OfflineVideoData" row.videoBytes = .ok m)
    (hs : decode_protobuf_message bbp "FormatStream" row.streamBytes = .retNone) :
    offlineInitStep bbp data row = .ok (updAssoc data row.id (some m, none, row.ts)) := by
  unfold offlineInitStep
  rw [hv, hs]
  rfl

theorem offlineIterStep_none_stream (k : String) (m : PVal) (ts : Int) (vid : Video) :
    offlineIterStep k (some m, none, ts) ≠ .ok vid := by
  intro h
  unfold offlineIterStep at h
  obtain ⟨d14, h1, h⟩ := bindE_ok.mp h
  obtain ⟨details, h2, h⟩ := bindE_ok.mp h
  obtain ⟨d2, h3, h⟩ := bindE_ok.mp h
  obtain ⟨coversVal, h4, h⟩ := bindE_ok.mp h
  obtain ⟨cover_url, h5, h⟩ := bindE_ok.mp h
  obtain ⟨ks, h6, h⟩ := bindE_ok.mp h
  obtain ⟨itag, h7, h⟩ := bindE_ok.mp h
  exact Except.noConfusion h7

theorem offlineIterStep_none_video (k : String) (so : Option PVal) (ts : Int) :
    offlineIterStep k (none, so, ts) = .error .typeError := by
  rfl

/-- C3 (amended): a Source B row whose "details" or "stream info" bytes fail
to decode is not dropped.  If the hinted decode fails but a raw decode
succeeds (a hint mismatch), the whole load raises `RuntimeError` and no row
is emitted at all; if even the raw decode fails, `None` is stored in the
row's triple, and iteration over the store can never yield a `Video` for that
row — it raises (`TypeError` immediately when the details record is `None`).
Only a fully-decoded row yields a record. -/
theorem offline_decode_failure_behavior :
    (∀ (bbp : BBP) (data : List (String × ORowVal)) (row : BRow),
      (decode_protobuf_message bbp "OfflineVideoData" row.videoBytes = .raised ∨
        decode_protobuf_message bbp "FormatStream" row.streamBytes = .raised) →
      offlineInitStep bbp data row = .error .runtimeError) ∧
    (∀ (bbp : BBP) (data : List (String × ORowVal)) (row : BRow) (m : PVal),
      decode_protobuf_message bbp "OfflineVideoData" row.videoBytes = .ok m →
      decode_protobuf_message bbp "FormatStream" row.streamBytes = .retNone →
      offlineInitStep bbp data row = .ok (updAssoc data row.id (some m, none, row.ts))) ∧
    (∀ (k : String) (m : PVal) (ts : Int) (vid : Video),
      offlineIterStep k (some m, none, ts) ≠ .ok vid) ∧
    (∀ (k : String) (so : Option PVal) (ts : Int),
      offlineIterStep k (none, so, ts) = .error .typeError) :=
  ⟨fun _ _ _ h => offlineInitStep_raised h,
   fun _ _ _ _ hv hs => offlineInitStep_retNone hv hs,
   offlineIterStep_none_stream,
   offlineIterStep_none_video⟩

/-- C3 witness: a concrete row whose stream bytes fail both decodes is stored
with a `None` stream component. -/
theorem offline_decode_failure_behavior_witness :
    offlineInitStep
      { hinted := fun h _ => if h = "FormatStream" then none else some (.vmsg [("x", .vint 1)]),
        raw := fun _ => none,
        b64u := fun _ => .ok [] }
      [] ⟨"k", [1], [2], 3⟩ =
      .ok (updAssoc [] "k" (some (.vmsg [("x", .vint 1)]), none, 3)) :=
  offline_decode_failure_behavior.2.1
    { hinted := fun h _ => if h = "FormatStream" then none else some (.vmsg [("x", .vint 1)]),
      raw := fun _ => none,
      b64u := fun _ => .ok [] }
    [] ⟨"k", [1], [2], 3⟩ (.vmsg [("x", .vint 1)]) (by rfl) (by rfl)

theorem entityInitStep_skip_retNone {bbp : BBP} {data : List (PVal × Entry)}
    {row : ERow} {kb : List Nat} {keyMsg kv : PVal}
    (hdt : row.data_type = 119 ∨ row.data_type = 198)
    (hb : bbp.b64u row.key = .ok kb)
    (hK : decode_protobuf_message bbp "Key" kb = .ok keyMsg)
    (hg : pyGet keyMsg "key" = .ok kv)
    (hd : decode_protobuf_message bbp (hintNameOf row.data_type) row.entity = .retNone) :
    entityInitStep bbp data row = .ok data := by
  have hcond : ¬(row.data_type ≠ 119 ∧ row.data_type ≠ 198) := by
    rcases hdt with h | h <;> simp [h]
  simp only [entityInitStep, if_neg hcond, hb, bindE, hK, hg, hd]

theorem entityInitStep_raised {bbp : BBP} {data : List (PVal × Entry)}
    {row : ERow} {kb : List Nat} {keyMsg kv : PVal}
    (hdt : row.data_type = 119 ∨ row.data_type = 198)
    (hb : bbp.b64u row.key = .ok kb)
    (hK : decode_protobuf_message bbp "Key" kb = .ok keyMsg)
    (hg : pyGet keyMsg "key" = .ok kv)
    (hd : decode_protobuf_message bbp (hintNameOf row.data_type) row.entity = .raised) :
    entityInitStep bbp data row = .error .runtimeError := by
  have hcond : ¬(row.data_type ≠ 119 ∧ row.data_type ≠ 198) := by
    rcases hdt with h | h <;> simp [h]
  simp only [entityInitStep, if_neg hcond, hb, bindE, hK, hg, hd]

theorem entityInitStep_key_none {bbp : BBP} {data : List (PVal × Entry)}
    {row : ERow} {kb : List Nat}
    (hdt : row.data_type = 119 ∨ row.data_type = 198)
    (hb : bbp.b64u row.key = .ok kb)
    (hK : decode_protobuf_message bbp "Key" kb = .retNone) :
    entityInitStep bbp data row = .error .typeError := by
  have hcond : ¬(row.data_type ≠ 119 ∧ row.data_type ≠ 198) := by
    rcases hdt with h | h <;> simp [h]
  simp only [entityInitStep, if_neg hcond, hb, bindE, hK]

/-- C5 counterexample: with an oracle under which the key decodes but the
entity bytes of a discriminator-119 row fail the hinted decode while the raw
decode succeeds (a schema/hint mismatch on that one row), the whole
`EntityStore` load raises `RuntimeError`: the reconciliation aborts instead
of skipping the record with a warning. -/
theorem entityInit_raises_cex :
    entityInit
      { hinted := fun h _ => if h = "Key" then some (.vmsg [("key", .vstr "a")]) else none,
        raw := fun _ => some (.vmsg [("1", .vint 0)]),
        b64u := fun _ => .ok [] }
      [⟨"q", 119, [1], 7⟩] [] = .error .runtimeError := by
  rfl

/-- C5 (amended): during `EntityStore` reconciliation a record whose bytes
fail even the raw decode is skipped (a warning is printed and the loop
continues with the mapping unchanged); but a hinted-decode failure on which
the raw decode succeeds — a schema/hint mismatch on one row — raises
`RuntimeError` and aborts the whole reconciliation, and a key whose hinted
decode returns `None` aborts it with `TypeError`. -/
theorem entity_decode_failure_behavior :
    (∀ (bbp : BBP) (data : List (PVal × Entry)) (row : ERow) (kb : List Nat)
      (keyMsg kv : PVal),
      (row.data_type = 119 ∨ row.data_type = 198) →
      bbp.b64u row.key = .ok kb →
      decode_protobuf_message bbp "Key" kb = .ok keyMsg →
      pyGet keyMsg "key" = .ok kv →
      decode_protobuf_message bbp (hintNameOf row.data_type) row.entity = .retNone →
      entityInitStep bbp data row = .ok data) ∧
    (∀ (bbp : BBP) (data : List (PVal × Entry)) (row : ERow) (kb : List Nat)
      (keyMsg kv : PVal),
      (row.data_type = 119 ∨ row.data_type = 198) →
      bbp.b64u row.key = .ok kb →
      decode_protobuf_message bbp "Key" kb = .ok keyMsg →
      pyGet keyMsg "key" = .ok kv →
      decode_protobuf_message bbp (hintNameOf row.data_type) row.entity = .raised →
      entityInitStep bbp data row = .error .runtimeError) ∧
    (∀ (bbp : BBP) (data : List (PVal × Entry)) (row : ERow) (kb : List Nat),
      (row.data_type = 119 ∨ row.data_type = 198) →
      bbp.b64u row.key = .ok kb →
      decode_protobuf_message bbp "Key" kb = .retNone →
      entityInitStep bbp data row = .error .typeError) :=
  ⟨fun _ _ _ _ _ _ hdt hb hK hg hd => entityInitStep_skip_retNone hdt hb hK hg hd,
   fun _ _ _ _ _ _ hdt hb hK hg hd => entityInitStep_raised hdt hb hK hg hd,
   fun _ _ _ _ hdt hb hK => entityInitStep_key_none hdt hb hK⟩

/-- C5 witness: a concrete discriminator-198 row whose entity bytes fail both
decodes is skipped, leaving the mapping unchanged. -/
theorem entity_decode_failure_behavior_witness :
    entityInitStep
      { hinted := fun h _ => if h = "Key" then some (.vmsg [("key", .vstr "a")]) else none,
        raw := fun _ => none,
        b64u := fun _ => .ok [] }
      [] ⟨"q", 198, [1], 7⟩ = .ok [] :=
  entity_decode_failure_behavior.1
    { hinted := fun h _ => if h = "Key" then some (.vmsg [("key", .vstr "a")]) else none,
      raw := fun _ => none,
      b64u := fun _ => .ok [] }
    [] ⟨"q", 198, [1], 7⟩ [] (.vmsg [("key", .vstr "a")]) (.vstr "a")
    (Or.inr rfl) (by rfl) (by rfl) (by rfl) (by rfl)

theorem entityIterStep_some_codes {k : PVal} {v : Entry} {vid : Video}
    (h : entityIterStep k v = .ok (some vid)) :
    lookupA v (EKey.ik 119) ≠ none ∧ lookupA v (EKey.ik 198) ≠ none := by
  unfold entityIterStep at h
  split at h
  · exact absurd h (by simp)
  · rename_i vd heq119
    obtain ⟨d2, h1, h⟩ := bindE_ok.mp h
    obtain ⟨details, h2, h⟩ := bindE_ok.mp h
    split at h
    · exact absurd h (by simp)
    · rename_i cache heq198
      exact ⟨by simp [heq119], by simp [heq198]⟩

theorem entityIterStep_both_not_none {k : PVal} {v : Entry}
    (h119 : lookupA v (EKey.ik 119) ≠ none)
    (h198 : lookupA v (EKey.ik 198) ≠ none) :
    entityIterStep k v ≠ .ok none := by
  intro h
  unfold entityIterStep at h
  split at h
  · rename_i heq; exact h119 heq
  · rename_i vd heq119
    obtain ⟨d2, h1, h⟩ := bindE_ok.mp h
    obtain ⟨details, h2, h⟩ := bindE_ok.mp h
    split at h
    · rename_i heq; exact h198 heq
    · rename_i cache heq198
      obtain ⟨stream, h3, h⟩ := bindE_ok.mp h
      obtain ⟨coversVal, h4, h⟩ := bindE_ok.mp h
      obtain ⟨cover_url, h5, h⟩ := bindE_ok.mp h
      obtain ⟨ks, h6, h⟩ := bindE_ok.mp h
      obtain ⟨itagRaw, h7a, h⟩ := bindE_ok.mp h
      obtain ⟨tsRaw, h8a, h⟩ := bindE_ok.mp h
      obtain ⟨itag, h7, h⟩ := bindE_ok.mp h
      obtain ⟨ts2, h8, h⟩ := bindE_ok.mp h
      obtain ⟨title, h9, h⟩ := bindE_ok.mp h
      obtain ⟨artist, h10, h⟩ := bindE_ok.mp h
      obtain ⟨mime, h11, h⟩ := bindE_ok.mp h
      simp at h

theorem entityIterStep_no_details {k : PVal} {v : Entry}
    (h : lookupA v (EKey.ik 119) = none) :
    entityIterStep k v = .ok none := by
  simp only [entityIterStep, h]

theorem entityIterStep_no_cache {k : PVal} {v : Entry}
    (_h119 : lookupA v (EKey.ik 119) ≠ none)
    (h198 : lookupA v (EKey.ik 198) = none) :
    entityIterStep k v = .ok none ∨ ∃ e, entityIterStep k v = .error e := by
  cases hstep : entityIterStep k v with
  | error e => exact Or.inr ⟨e, rfl⟩
  | ok o =>
    cases o with
    | none => exact Or.inl rfl
    | some vid => exact absurd h198 (entityIterStep_some_codes hstep).2

/-- C6 counterexample: an identifier whose accumulated dict has a
(malformed) code-119 message but no code-198 message is not silently
dropped — iteration raises `KeyError` (the details fields are extracted
before the code-198 membership check), so "no record and no error" fails. -/
theorem entityIter_missing_code_error_cex :
    entityIter [(.vstr "a", [(EKey.ik 119, .vmsg [])])] = ([], some (.keyError "2")) := by
  rfl

/-- C6 (amended): a `VideoRecord` is emitted only for identifiers whose
accumulated rows carry both discriminator codes (119 and 198); when both are
present the identifier is never silently dropped (either a record is emitted
or an extraction error is raised); an identifier with no code-119 row is
silently dropped; an identifier with a code-119 row but no code-198 row is
silently dropped unless extracting the details fields raises (that extraction
precedes the code-198 check), in which case iteration errors. -/
theorem entity_both_codes_required :
    (∀ (k : PVal) (v : Entry) (vid : Video), entityIterStep k v = .ok (some vid) →
      lookupA v (EKey.ik 119) ≠ none ∧ lookupA v (EKey.ik 198) ≠ none) ∧
    (∀ (k : PVal) (v : Entry), lookupA v (EKey.ik 119) ≠ none →
      lookupA v (EKey.ik 198) ≠ none → entityIterStep k v ≠ .ok none) ∧
    (∀ (k : PVal) (v : Entry), lookupA v (EKey.ik 119) = none →
      entityIterStep k v = .ok none) ∧
    (∀ (k : PVal) (v : Entry), lookupA v (EKey.ik 119) ≠ none →
      lookupA v (EKey.ik 198) = none →
      entityIterStep k v = .ok none ∨ ∃ e, entityIterStep k v = .error e) :=
  ⟨fun _ _ _ h => entityIterStep_some_codes h,
   fun _ _ h119 h198 => entityIterStep_both_not_none h119 h198,
   fun _ _ h => entityIterStep_no_details h,
   fun _ _ h119 h198 => entityIterStep_no_cache h119 h198⟩

/-- C6 witness: an identifier with an empty accumulated dict is silently
skipped. -/
theorem entity_both_codes_required_witness :
    entityIterStep (.vstr "w") [] = .ok none :=
  entity_both_codes_required.2.2.1 (.vstr "w") [] (by rfl)

theorem entityIterStep_cache_key {k : PVal} {v : Entry} {vid : Video}
    (h : entityIterStep k v = .ok (some vid)) :
    ∃ (s : String) (itagV tsV : Int) (cache stream : PVal),
      vid.id = k ∧ pyAsciiStr k = .ok s ∧
      lookupA v (EKey.ik 198) = some cache ∧
      streamOfCache cache = .ok stream ∧
      bindE (pyGet stream "itag") pyAsInt = .ok itagV ∧
      bindE (pyGet stream "timestamp") pyAsInt = .ok tsV ∧
      vid.cache_key = s ++ "." ++ toString itagV ++ "." ++ toString tsV := by
  unfold entityIterStep at h
  split at h
  · exact absurd h (by simp)
  · rename_i vd heq119
    obtain ⟨d2, h1, h⟩ := bindE_ok.mp h
    obtain ⟨details, h2, h⟩ := bindE_ok.mp h
    split at h
    · exact absurd h (by simp)
    · rename_i cache heq198
      obtain ⟨stream, h3, h⟩ := bindE_ok.mp h
      obtain ⟨coversVal, h4, h⟩ := bindE_ok.mp h
      obtain ⟨cover_url, h5, h⟩ := bindE_ok.mp h
      obtain ⟨ks, h6, h⟩ := bindE_ok.mp h
      obtain ⟨itagRaw, h7a, h⟩ := bindE_ok.mp h
      obtain ⟨tsRaw, h8a, h⟩ := bindE_ok.mp h
      obtain ⟨itag, h7, h⟩ := bindE_ok.mp h
      obtain ⟨ts2, h8, h⟩ := bindE_ok.mp h
      obtain ⟨title, h9, h⟩ := bindE_ok.mp h
      obtain ⟨artist, h10, h⟩ := bindE_ok.mp h
      obtain ⟨mime, h11, h⟩ := bindE_ok.mp h
      simp only [Except.ok.injEq, Option.some.injEq] at h
      exact ⟨ks, itag, ts2, cache, stream, by rw [← h], h6, heq198, h3,
        bindE_ok.mpr ⟨itagRaw, h7a, h7⟩, bindE_ok.mpr ⟨tsRaw, h8a, h8⟩,
        by rw [← h]⟩

theorem offlineIterStep_cache_key {k : String} {v : ORowVal} {vid : Video}
    (h : offlineIterStep k v = .ok vid) :
    ∃ (itagV tsV : Int),
      vid.id = .vstr k ∧
      bindE (pyGetOpt v.2.1 "itag") pyAsInt = .ok itagV ∧
      bindE (pyGetOpt v.2.1 "timestamp") pyAsInt = .ok tsV ∧
      vid.cache_key = k ++ "." ++ toString itagV ++ "." ++ toString tsV := by
  unfold offlineIterStep at h
  obtain ⟨d14, h1, h⟩ := bindE_ok.mp h
  obtain ⟨details, h2, h⟩ := bindE_ok.mp h
  obtain ⟨d2, h3, h⟩ := bindE_ok.mp h
  obtain ⟨coversVal, h4, h⟩ := bindE_ok.mp h
  obtain ⟨cover_url, h5, h⟩ := bindE_ok.mp h
  obtain ⟨ks, h6, h⟩ := bindE_ok.mp h
  obtain ⟨itagRaw, h7a, h⟩ := bindE_ok.mp h
  obtain ⟨tsRaw, h8a, h⟩ := bindE_ok.mp h
  obtain ⟨itag, h7, h⟩ := bindE_ok.mp h
  obtain ⟨ts2, h8, h⟩ := bindE_ok.mp h
  obtain ⟨title, h9, h⟩ := bindE_ok.mp h
  obtain ⟨artist, h10, h⟩ := bindE_ok.mp h
  obtain ⟨mime, h11, h⟩ := bindE_ok.mp h
  have hks : ks = k := by
    simp only [pyAsciiStr] at h6
    split at h6
    · injection h6 with h6
      exact h6.symm
    · exact Except.noConfusion h6
  simp only [Except.ok.injEq] at h
  exact ⟨itag, ts2, by rw [← h], bindE_ok.mpr ⟨itagRaw, h7a, h7⟩,
    bindE_ok.mpr ⟨tsRaw, h8a, h8⟩, by rw [← h, hks]⟩

/-- C7: for every `VideoRecord` emitted by either source, its `cache_key`
equals the byte string `"{id}.{itag}.{stream_timestamp}"`: the record's
identifier (ASCII-encoded), a dot, the decoded stream-info itag, a dot, and
the decoded stream-info timestamp. -/
theorem cache_key_format :
    (∀ (k : PVal) (v : Entry) (vid : Video), entityIterStep k v = .ok (some vid) →
      ∃ (s : String) (itagV tsV : Int) (cache stream : PVal),
        vid.id = k ∧ pyAsciiStr k = .ok s ∧
        lookupA v (EKey.ik 198) = some cache ∧
        streamOfCache cache = .ok stream ∧
        bindE (pyGet stream "itag") pyAsInt = .ok itagV ∧
        bindE (pyGet stream "timestamp") pyAsInt = .ok tsV ∧
        vid.cache_key = s ++ "." ++ toString itagV ++ "." ++ toString tsV) ∧
    (∀ (k : String) (v : ORowVal) (vid : Video), offlineIterStep k v = .ok vid →
      ∃ (itagV tsV : Int),
        vid.id = .vstr k ∧
        bindE (pyGetOpt v.2.1 "itag") pyAsInt = .ok itagV ∧
        bindE (pyGetOpt v.2.1 "timestamp") pyAsInt = .ok tsV ∧
        vid.cache_key = k ++ "." ++ toString itagV ++ "." ++ toString tsV) :=
  ⟨fun _ _ _ h => entityIterStep_cache_key h,
   fun _ _ _ h => offlineIterStep_cache_key h⟩

/-- C7 witness: the concrete emitted record carries
`cache_key = "a.5.6" = id ++ "." ++ itag ++ "." ++ timestamp`. -/
theorem cache_key_format_witness :
    ∃ (itagV tsV : Int),
      w7vid.id = .vstr "a" ∧
      bindE (pyGetOpt w7val.2.1 "itag") pyAsInt = .ok itagV ∧
      bindE (pyGetOpt w7val.2.1 "timestamp") pyAsInt = .ok tsV ∧
      w7vid.cache_key = "a" ++ "." ++ toString itagV ++ "." ++ toString tsV :=
  cache_key_format.2 "a" w7val w7vid (by rfl)

theorem mem_updAssoc {α β : Type} [DecidableEq α] {l : List (α × β)} {k : α} {v : β}
    {x : α × β} (h : x ∈ updAssoc l k v) : (x.1 = k ∧ x.2 = v) ∨ x ∈ l := by
  induction l with
  | nil =>
    simp only [updAssoc, List.mem_singleton] at h
    exact Or.inl (by rw [h]; exact ⟨rfl, rfl⟩)
  | cons hd t ih =>
    obtain ⟨a, b⟩ := hd
    unfold updAssoc at h
    split at h
    · rename_i hak
      rcases List.mem_cons.mp h with h | h
      · exact Or.inl (by rw [h, hak]; exact ⟨rfl, rfl⟩)
      · exact Or.inr (List.mem_cons_of_mem _ h)
    · rcases List.mem_cons.mp h with h | h
      · exact Or.inr (by rw [h]; exact List.mem_cons_self _ _)
      · rcases ih h with h | h
        · exact Or.inl h
        · exact Or.inr (List.mem_cons_of_mem _ h)

theorem mem_updB {l : List (PVal × Entry)} {k : PVal} {v : Entry}
    {x : PVal × Entry} (h : x ∈ updB l k v) : x.2 = v ∨ x ∈ l := by
  induction l with
  | nil =>
    simp only [updB, List.mem_singleton] at h
    exact Or.inl (by rw [h])
  | cons hd t ih =>
    obtain ⟨a, b⟩ := hd
    unfold updB at h
    split at h
    · rcases List.mem_cons.mp h with h | h
      · exact Or.inl (by rw [h])
      · exact Or.inr (List.mem_cons_of_mem _ h)
    · rcases List.mem_cons.mp h with h | h
      · exact Or.inr (by rw [h]; exact List.mem_cons_self _ _)
      · rcases ih h with h | h
        · exact Or.inl h
        · exact Or.inr (List.mem_cons_of_mem _ h)

theorem lookupB_mem {l : List (PVal × Entry)} {k : PVal} {e : Entry}
    (h : lookupB l k = some e) : ∃ a, (a, e) ∈ l := by
  induction l with
  | nil => exact Option.noConfusion h
  | cons hd t ih =>
    obtain ⟨a, b⟩ := hd
    unfold lookupB at h
    split at h
    · injection h with h
      exact ⟨a, by rw [h]; exact List.mem_cons_self _ _⟩
    · obtain ⟨a2, h2⟩ := ih h
      exact ⟨a2, List.mem_cons_of_mem _ h2⟩

theorem entryOK_lookup_56 {v : Entry} (hv : EntryOK v) :
    lookupA v (EKey.sk "56") = none := by
  induction v with
  | nil => rfl
  | cons p t ih =>
    obtain ⟨a, b⟩ := p
    have ha := hv (a, b) (List.mem_cons_self _ _)
    unfold lookupA
    rw [if_neg (by rcases ha with h | h | h <;> simp_all)]
    exact ih (fun q hq => hv q (List.mem_cons_of_mem _ hq))

theorem entityInitStep_preserves {bbp : BBP} {data data2 : List (PVal × Entry)}
    {row : ERow} (hd : DataOK data)
    (h : entityInitStep bbp data row = .ok data2) : DataOK data2 := by
  unfold entityInitStep at h
  split at h
  · injection h with h
    rw [← h]; exact hd
  · rename_i hdt
    have hdt2 : row.data_type = 119 ∨ row.data_type = 198 := by
      by_cases h1 : row.data_type = 119
      · exact Or.inl h1
      · by_cases h2 : row.data_type = 198
        · exact Or.inr h2
        · exact absurd ⟨h1, h2⟩ hdt
    obtain ⟨kb, h1, h⟩ := bindE_ok.mp h
    split at h
    · exact Except.noConfusion h
    · exact Except.noConfusion h
    · rename_i keyMsg heqK
      obtain ⟨kv, h2, h⟩ := bindE_ok.mp h
      split at h
      · exact Except.noConfusion h
      · injection h with h
        rw [← h]; exact hd
      · rename_i m heqM
        split at h
        · injection h with h
          rw [← h]
          intro p hp
          rcases mem_updB hp with hp | hp
          · rw [hp]
            have hentry : EntryOK ((lookupB data kv).getD []) := by
              cases hB : lookupB data kv with
              | none => intro q hq; exact absurd hq (List.not_mem_nil q)
              | some e =>
                obtain ⟨a, ha⟩ := lookupB_mem hB
                exact hd (a, e) ha
            have hentry1 : EntryOK (updAssoc ((lookupB data kv).getD [])
                (EKey.ik row.data_type) m) := by
              intro q hq
              rcases mem_updAssoc hq with hq | hq
              · rcases hdt2 with hh | hh
                · exact Or.inl (by rw [hq.1, hh])
                · exact Or.inr (Or.inl (by rw [hq.1, hh]))
              · exact hentry q hq
            split
            · intro q hq
              rcases mem_updAssoc hq with hq | hq
              · exact Or.inr (Or.inr hq.1)
              · exact hentry1 q hq
            · exact hentry1
          · exact hd p hp
        · injection h with h
          rw [← h]; exact hd

theorem entityInit_preserves (bbp : BBP) (rows : List ERow) :
    ∀ {data data2 : List (PVal × Entry)}, DataOK data →
      entityInit bbp rows data = .ok data2 → DataOK data2 := by
  induction rows with
  | nil =>
    intro data data2 hd h
    unfold entityInit at h
    injection h with h
    rw [← h]; exact hd
  | cons row rest ih =>
    intro data data2 hd h
    unfold entityInit at h
    split at h
    · exact Except.noConfusion h
    · rename_i dmid heq
      exact ih (entityInitStep_preserves hd heq) h

theorem entityIterStep_album {k : PVal} {v : Entry} {vid : Video}
    (hv : EntryOK v) (h : entityIterStep k v = .ok (some vid)) :
    vid.album = some (.vstr "") := by
  unfold entityIterStep at h
  split at h
  · exact absurd h (by simp)
  · rename_i vd heq119
    obtain ⟨d2, h1, h⟩ := bindE_ok.mp h
    obtain ⟨details, h2, h⟩ := bindE_ok.mp h
    split at h
    · exact absurd h (by simp)
    · rename_i cache heq198
      obtain ⟨stream, h3, h⟩ := bindE_ok.mp h
      obtain ⟨coversVal, h4, h⟩ := bindE_ok.mp h
      obtain ⟨cover_url, h5, h⟩ := bindE_ok.mp h
      obtain ⟨ks, h6, h⟩ := bindE_ok.mp h
      obtain ⟨itagRaw, h7a, h⟩ := bindE_ok.mp h
      obtain ⟨tsRaw, h8a, h⟩ := bindE_ok.mp h
      obtain ⟨itag, h7, h⟩ := bindE_ok.mp h
      obtain ⟨ts2, h8, h⟩ := bindE_ok.mp h
      obtain ⟨title, h9, h⟩ := bindE_ok.mp h
      obtain ⟨artist, h10, h⟩ := bindE_ok.mp h
      obtain ⟨mime, h11, h⟩ := bindE_ok.mp h
      simp only [Except.ok.injEq, Option.some.injEq] at h
      rw [← h]
      simp only [entryOK_lookup_56 hv, Option.getD]

theorem entityIter_albums {data : List (PVal × Entry)} (hd : DataOK data) :
    ∀ vid ∈ (entityIter data).1, vid.album = some (.vstr "") := by
  induction data with
  | nil => intro vid hvid; exact absurd hvid (List.not_mem_nil vid)
  | cons p rest ih =>
    obtain ⟨k, v⟩ := p
    intro vid hvid
    have hrest : DataOK rest := fun q hq => hd q (List.mem_cons_of_mem _ hq)
    unfold entityIter at hvid
    split at hvid
    · exact absurd hvid (List.not_mem_nil vid)
    · exact ih hrest vid hvid
    · rename_i vid0 heq
      rcases List.mem_cons.mp hvid with hvid | hvid
      · rw [hvid]
        exact entityIterStep_album (hd (k, v) (List.mem_cons_self _ _)) heq
      · exact ih hrest vid hvid

theorem offlineIterStep_album {k : String} {v : ORowVal} {vid : Video}
    (h : offlineIterStep k v = .ok vid) : vid.album = none := by
  unfold offlineIterStep at h
  obtain ⟨d14, h1, h⟩ := bindE_ok.mp h
  obtain ⟨details, h2, h⟩ := bindE_ok.mp h
  obtain ⟨d2, h3, h⟩ := bindE_ok.mp h
  obtain ⟨coversVal, h4, h⟩ := bindE_ok.mp h
  obtain ⟨cover_url, h5, h⟩ := bindE_ok.mp h
  obtain ⟨ks, h6, h⟩ := bindE_ok.mp h
  obtain ⟨itagRaw, h7a, h⟩ := bindE_ok.mp h
  obtain ⟨tsRaw, h8a, h⟩ := bindE_ok.mp h
  obtain ⟨itag, h7, h⟩ := bindE_ok.mp h
  obtain ⟨ts2, h8, h⟩ := bindE_ok.mp h
  obtain ⟨title, h9, h⟩ := bindE_ok.mp h
  obtain ⟨artist, h10, h⟩ := bindE_ok.mp h
  obtain ⟨mime, h11, h⟩ := bindE_ok.mp h
  injection h with h
  rw [← h]

/-- C10: no emitted `VideoRecord` ever carries a real album value: every
record produced from Source A (the entity store, loaded by `entityInit` from
any rows whatsoever) has `album = ''` — the dict key `"56"` is never stored,
so `v.get("56", '')` always falls back to the empty string — and every record
produced from Source B has `album = None` literally. -/
theorem album_never_set :
    (∀ (bbp : BBP) (rows : List ERow) (data : List (PVal × Entry)),
      entityInit bbp rows [] = .ok data →
      ∀ vid ∈ (entityIter data).1, vid.album = some (.vstr "")) ∧
    (∀ (k : String) (v : ORowVal) (vid : Video),
      offlineIterStep k v = .ok vid → vid.album = none) :=
  ⟨fun bbp rows _data h =>
    entityIter_albums (entityInit_preserves bbp rows
      (fun p hp => absurd hp (List.not_mem_nil p)) h),
   fun _ _ _ h => offlineIterStep_album h⟩

/-- C10 witness: the concrete Source B record carries `album = None`. -/
theorem album_never_set_witness : w10vid.album = none :=
  album_never_set.2 "b" w10val w10vid (by rfl)

theorem pickFirstMax_acc_le : ∀ (ps : List (String × Int)) (b : String × Int),
    b.2 ≤ (pickFirstMax b ps).2 := by
  intro ps
  induction ps with
  | nil => intro b; exact le_refl _
  | cons p t ih =>
    intro b
    unfold pickFirstMax
    by_cases hc : b.2 < p.2
    · simp only [if_pos hc]
      exact le_trans (le_of_lt hc) (ih p)
    · simp only [if_neg hc]
      exact ih b

theorem pickFirstMax_split : ∀ (ps : List (String × Int)) (b : String × Int),
    ∃ pre post, b :: ps = pre ++ pickFirstMax b ps :: post ∧
      (∀ p ∈ pre, p.2 < (pickFirstMax b ps).2) ∧
      (∀ p ∈ post, p.2 ≤ (pickFirstMax b ps).2) := by
  intro ps
  induction ps with
  | nil =>
    intro b
    exact ⟨[], [], rfl, by simp, by simp⟩
  | cons p t ih =>
    intro b
    unfold pickFirstMax
    by_cases hc : b.2 < p.2
    · simp only [if_pos hc]
      obtain ⟨pre, post, heq, hpre, hpost⟩ := ih p
      refine ⟨b :: pre, post, ?_, ?_, hpost⟩
      · rw [List.cons_append, ← heq]
      · intro q hq
        rcases List.mem_cons.mp hq with hq | hq
        · rw [hq]
          exact lt_of_lt_of_le hc (pickFirstMax_acc_le t p)
        · exact hpre q hq
    · simp only [if_neg hc]
      obtain ⟨pre, post, heq, hpre, hpost⟩ := ih b
      cases pre with
      | nil =>
        rw [List.nil_append] at heq
        injection heq with h1 h2
        refine ⟨[], p :: post, ?_, by simp, ?_⟩
        · rw [List.nil_append, ← h1, ← h2]
        · intro q hq
          rcases List.mem_cons.mp hq with hq | hq
          · rw [hq, ← h1]
            exact le_of_not_lt hc
          · exact hpost q hq
      | cons b0 pre2 =>
        rw [List.cons_append] at heq
        injection heq with h1 h2
        subst h1
        have hb0 : b.2 < (pickFirstMax b t).2 :=
          hpre b (List.mem_cons_self _ _)
        refine ⟨b :: p :: pre2, post, ?_, ?_, hpost⟩
        · rw [List.cons_append, List.cons_append, ← h2]
        · intro q hq
          rcases List.mem_cons.mp hq with hq | hq
          · rw [hq]
            exact hb0
          · rcases List.mem_cons.mp hq with hq | hq
            · rw [hq]
              calc p.2 ≤ b.2 := le_of_not_lt hc
                _ < _ := hb0
            · exact hpre q (List.mem_cons_of_mem _ hq)

theorem pymaxGo_coverA (ps : List (String × Int)) :
    ∀ b, pymaxGo (fun x => pyGet x "2") (coverA b) (.vint b.2)
      (ps.map coverA) = .ok (coverA (pickFirstMax b ps)) := by
  induction ps with
  | nil => intro b; rfl
  | cons p t ih =>
    intro b
    have hkey : pyGet (coverA p) "2" = .ok (.vint p.2) := rfl
    simp only [List.map_cons, pymaxGo, hkey, gtP, pickFirstMax]
    by_cases hc : b.2 < p.2
    · simp only [hc, decide_True, if_true, if_pos hc]
      exact ih p
    · simp only [hc, decide_False, if_false, if_neg hc]
      exact ih b

theorem pymaxGo_coverB (ps : List (String × Int)) :
    ∀ b, pymaxGo (fun x => pyGet x "height") (coverB b) (.vint b.2)
      (ps.map coverB) = .ok (coverB (pickFirstMax b ps)) := by
  induction ps with
  | nil => intro b; rfl
  | cons p t ih =>
    intro b
    have hkey : pyGet (coverB p) "height" = .ok (.vint p.2) := rfl
    simp only [List.map_cons, pymaxGo, hkey, gtP, pickFirstMax]
    by_cases hc : b.2 < p.2
    · simp only [hc, decide_True, if_true, if_pos hc]
      exact ih p
    · simp only [hc, decide_False, if_false, if_neg hc]
      exact ih b

theorem coverUrlA_list (b : String × Int) (ps : List (String × Int)) :
    coverUrlA (.vlist ((b :: ps).map coverA)) = .ok (.vstr (pickFirstMax b ps).1) := by
  have hkey : pyGet (coverA b) "2" = .ok (.vint b.2) := rfl
  simp only [coverUrlA, pymaxCoversA, List.map_cons, pymaxBy, hkey,
    pymaxGo_coverA ps b]
  rfl

theorem coverUrlB_list (b : String × Int) (ps : List (String × Int)) :
    coverUrlB (.vlist ((b :: ps).map coverB)) = .ok (.vstr (pickFirstMax b ps).1) := by
  have hkey : pyGet (coverB b) "height" = .ok (.vint b.2) := rfl
  simp only [coverUrlB, normCovers, List.map_cons, pymaxBy, hkey,
    pymaxGo_coverB ps b]
  rfl

theorem coverUrlB_single (c : PVal) (h : ∀ l, c ≠ .vlist l) :
    coverUrlB c = coverUrlB (.vlist [c]) := by
  cases c with
  | vint n => rfl
  | vstr s => rfl
  | vmsg m => rfl
  | vlist l => exact absurd rfl (h l)

theorem coverUrlA_single_raises (m : List (String × PVal)) (h : m ≠ []) :
    coverUrlA (.vmsg m) = .error .typeError := by
  cases m with
  | nil => exact absurd rfl h
  | cons p t => rfl

/-- C4 counterexample: in Source A a single (non-repeated) cover candidate is
not normalized to a list: iterating one accumulated identifier whose details
carry a single cover dict raises `TypeError` (Python's `max` iterates the
dict's string keys and the key lambda subscripts a string) instead of
emitting a record with that candidate's URL. -/
theorem entity_single_cover_cex :
    entityIterStep (.vstr "a")
      [(EKey.ik 119, .vmsg [("2", .vmsg [("11", .vmsg [("25", .vmsg [("1",
          .vmsg [("1", .vstr "u"), ("2", .vint 480)])]), ("title", .vstr "t"),
          ("artist", .vstr "ar")])])]),
       (EKey.ik 198, .vmsg [("2", .vmsg [("format_stream",
          .vmsg [("itag", .vint 1), ("timestamp", .vint 2),
            ("mime_type", .vstr "m")])])])]
      = .error .typeError := by
  rfl

/-- C4 (amended): Source B normalizes the cover-candidate field, accepting a
single candidate and a repeated list transparently, but Source A does not —
there a single candidate raises `TypeError`.  For a repeated list both
sources emit the URL of the candidate with the numerically largest size
attribute (field `"2"` in Source A, `height` in Source B), ties resolving to
the first maximal element: the selected candidate splits the list so that
everything before it is strictly smaller and everything after it no larger. -/
theorem cover_selection :
    (∀ (b : String × Int) (ps : List (String × Int)),
      coverUrlA (.vlist ((b :: ps).map coverA)) = .ok (.vstr (pickFirstMax b ps).1)) ∧
    (∀ (b : String × Int) (ps : List (String × Int)),
      coverUrlB (.vlist ((b :: ps).map coverB)) = .ok (.vstr (pickFirstMax b ps).1)) ∧
    (∀ c : PVal, (∀ l, c ≠ .vlist l) → coverUrlB c = coverUrlB (.vlist [c])) ∧
    (∀ m : List (String × PVal), m ≠ [] → coverUrlA (.vmsg m) = .error .typeError) ∧
    (∀ (b : String × Int) (ps : List (String × Int)),
      ∃ pre post, b :: ps = pre ++ pickFirstMax b ps :: post ∧
        (∀ p ∈ pre, p.2 < (pickFirstMax b ps).2) ∧
        (∀ p ∈ post, p.2 ≤ (pickFirstMax b ps).2)) :=
  ⟨coverUrlA_list, coverUrlB_list, coverUrlB_single, coverUrlA_single_raises,
   fun b ps => pickFirstMax_split ps b⟩

/-- C4 witness: a concrete single Source B cover candidate is selected
exactly as the singleton list of it would be. -/
theorem cover_selection_witness :
    coverUrlB (coverB ("w", 3)) = coverUrlB (.vlist [coverB ("w", 3)]) :=
  cover_selection.2.2.1 (coverB ("w", 3))
    (fun l h => by simp only [coverB] at h; exact PVal.noConfusion h)

/-! ### Helper lemmas about the hash -/

theorem fnv1a_mix_lt (r : Nat) : fnv1a_mix r < 2 ^ 64 := by
  have h : fnv1a_mix r ≤ 0xffffffffffffffff := Nat.and_le_right
  omega

theorem fnv1a_step_lt (res i : Nat) : fnv1a_step res i < 2 ^ 64 :=
  fnv1a_mix_lt (res ^^^ i)

theorem fnv1a_foldl_lt (data : List Nat) (init : Nat) (h : init < 2 ^ 64) :
    data.foldl fnv1a_step init < 2 ^ 64 := by
  induction data generalizing init with
  | nil => simpa using h
  | cons b t ih => exact ih (fnv1a_step init b) (fnv1a_step_lt init b)

theorem zipWith_xor_cancel (l ks : List Nat) (h : l.length ≤ ks.length) :
    List.zipWith (fun a b => a ^^^ b) (List.zipWith (fun a b => a ^^^ b) l ks) ks = l := by
  induction l generalizing ks with
  | nil => simp
  | cons a t ih =>
    cases ks with
    | nil => simp at h
    | cons k kt =>
      simp only [List.zipWith_cons_cons, Nat.xor_cancel_right, List.cons.injEq, true_and]
      exact ih kt (by simpa using h)

/-- C9: the per-byte update of the hash replaces the multiplication by explicit
shift/add terms masked to 64 bits; for every accumulator value and input byte
this equals multiplying the xored accumulator by the standard 64-bit FNV prime
0x100000001b3 modulo 2^64. -/
theorem fnv1a_step_is_mul_prime (res i : Nat) :
    fnv1a_step res i = ((res ^^^ i) * 0x100000001b3) % 2 ^ 64 := by
  unfold fnv1a_step fnv1a_mix
  have h : (0xffffffffffffffff : Nat) = 2 ^ 64 - 1 := by norm_num
  rw [h, Nat.and_pow_two_sub_one_eq_mod]
  have h2 : ∀ r : Nat,
      r + (r <<< 1) + (r <<< 4) + (r <<< 5) + (r <<< 7) + (r <<< 8) + (r <<< 40) =
        r * 0x100000001b3 := by
    intro r
    simp only [Nat.shiftLeft_eq]
    norm_num
    ring
  rw [h2]

/-- C1 counterexample: the hash of the empty byte string is not the standard
64-bit FNV offset basis, because the accumulator starts at 0, not at the
offset basis. -/
theorem fnv1a_empty_ne_offset_basis : fnv1a [] ≠ 0xcbf29ce484222325 := by
  have h : fnv1a [] = 0 := rfl
  omega

/-- C1 (amended): the accumulator of `fnv1a` starts at 0, so the hash of the
empty byte string is 0; the function is deterministic (it is a function of its
input alone) and its result always wraps modulo 2^64. -/
theorem fnv1a_zero_init_and_wraps :
    fnv1a [] = 0 ∧ ∀ data : List Nat, fnv1a data < 2 ^ 64 := by
  constructor
  · rfl
  · intro data
    exact fnv1a_foldl_lt data 0 (by norm_num)

/-- C8: decryption is self-inverse under the matching counter-mode encrypt
operation: for every abstract block cipher, plaintext, 16-byte key and cache
key, `decrypt_media (encrypt_media p) = p`, both directions using the IV whose
high 8 bytes are the big-endian FNV-1a hash of the cache key and whose low
8 bytes are zero. -/
theorem decrypt_media_encrypt_media (aes : List Nat → List Nat → List Nat)
    (p key cache_key : List Nat) (_hkey : key.length = 16) :
    decrypt_media aes (encrypt_media aes p key cache_key) key cache_key = p := by
  unfold decrypt_media encrypt_media ctrProcess
  have hlen : (List.zipWith (fun a b => a ^^^ b) p
      (keystream aes key (fnv1a_iv cache_key) p.length)).length = p.length := by
    simp [keystream]
  rw [hlen]
  exact zipWith_xor_cancel p _ (by simp [keystream])

/-- C8 witness: a concrete run of the round trip with the identity block
cipher, a 16-byte key and a 3-byte plaintext. -/
theorem decrypt_media_encrypt_media_witness :
    decrypt_media (fun _ b => b) (encrypt_media (fun _ b => b) [1, 2, 3]
      (List.replicate 16 0) [65]) (List.replicate 16 0) [65] = [1, 2, 3] :=
  decrypt_media_encrypt_media (fun _ b => b) [1, 2, 3] (List.replicate 16 0) [65]
    (by decide)

end YtmDumper
